import Mathlib

/-!
Verification development for the ai-program-factory repository.

The definitions below are shallow embeddings of the TypeScript source:
pure functions become Lean functions, the sqlite tables and in-memory maps
become association lists, stateful methods become explicit state-passing
functions, and fallible calls return `Except`/`Option`.  Machine numbers
are `Int`/`Nat`/`Rat`; the only floating-point arithmetic the claims touch
(`Math.round((as+ss+qs+es)/4)` on small integer scores) is exact in IEEE
doubles, so it is embedded over `Rat`.
-/

/-- Association-list lookup keyed on the first component (models
`Map.get` and a `SELECT ... WHERE key = ?` on a primary key). -/
def alookup {α β : Type} [DecidableEq α] (k : α) : List (α × β) → Option β
  | [] => none
  | (k', v) :: rest => if k' = k then some v else alookup k rest

/-- Association-list upsert (models `Map.set` and sqlite
`INSERT OR REPLACE` on a primary key: the existing row is replaced in
place, otherwise a new row is appended). -/
def upsert {α β : Type} [DecidableEq α] (k : α) (v : β) : List (α × β) → List (α × β)
  | [] => [(k, v)]
  | (k', v') :: rest => if k' = k then (k, v) :: rest else (k', v') :: upsert k v rest

/-- Association-list delete (models `Map.delete` and `DELETE WHERE key = ?`). -/
def adelete {α β : Type} [DecidableEq α] (k : α) (l : List (α × β)) : List (α × β) :=
  l.filter (fun p => p.1 ≠ k)

/-! ## Workflow state machine (src/unnamed/part_008, `WorkflowManager`) -/

/-- The `WorkflowStep` string-union type of src/unnamed/part_008. -/
inductive WorkflowStep where
  | brief
  | route_selection
  | route_a_upload
  | content_review
  | approach_selection_a
  | arc_generation
  | arc_review
  | route_b_research
  | approach_selection_b
  | matrix_generation
  | matrix_review
  | sample_generation
  | sample_validation
  | batch_generation
  | completed
  deriving DecidableEq, Repr

/-- The `'A' | 'B'` route union type. -/
inductive Route where
  | A
  | B
  deriving DecidableEq, Repr

/-- Embeds `WorkflowManager.getNextStep` (src/unnamed/part_008 lines 138-168):
the `stepFlow` record, with the `route_selection` entry a function of the
optional route (`r === 'A' ? 'route_a_upload' : 'route_b_research'`; an
unset route therefore falls to `route_b_research`). -/
def getNextStep (currentStep : WorkflowStep) (route : Option Route) : WorkflowStep :=
  match currentStep with
  | .brief => .route_selection
  | .route_selection => match route with
    | some .A => .route_a_upload
    | _ => .route_b_research
  | .route_a_upload => .content_review
  | .content_review => .approach_selection_a
  | .approach_selection_a => .arc_generation
  | .arc_generation => .arc_review
  | .arc_review => .matrix_generation
  | .route_b_research => .approach_selection_b
  | .approach_selection_b => .arc_generation
  | .matrix_generation => .matrix_review
  | .matrix_review => .sample_generation
  | .sample_generation => .sample_validation
  | .sample_validation => .batch_generation
  | .batch_generation => .completed
  | .completed => .completed

/-- One row of the `workflow_sessions` table (src/unnamed/part_000 schema;
interface `WorkflowSession` in the database queries module).  Timestamps
are modelled by a monotone counter; `CURRENT_TIMESTAMP` becomes a tick. -/
structure WorkflowSession where
  status : String
  current_step : WorkflowStep
  route : Option Route
  client_name : String
  industry : String
  updated_at : Nat
  deriving DecidableEq, Repr

/-- Embeds `WorkflowManager.advanceToStep` (src/unnamed/part_008 lines 66-69):
`updateSession(sessionId, { current_step: step })`.  The source performs
no validation of the target step whatsoever — it unconditionally writes
`current_step` (and `updated_at = CURRENT_TIMESTAMP`) and succeeds. -/
def advanceToStep (s : WorkflowSession) (step : WorkflowStep) : WorkflowSession :=
  { s with current_step := step, updated_at := s.updated_at + 1 }

/-- A session together with its `session_data` rows (key ↦ stored text),
as touched by `setRoute`.  The claims under study are per-session, so the
session-id keying of the sqlite store is elided here. -/
structure SessionState where
  session : WorkflowSession
  data : List (String × String)
  deriving DecidableEq, Repr

/-- The route as stored by `saveSessionData(sessionId, 'route', route)`
(a plain string, stored verbatim). -/
def routeStr : Route → String
  | .A => "A"
  | .B => "B"

/-- Embeds `WorkflowManager.setRoute` (src/unnamed/part_008 lines 74-78):
`updateSession(sessionId, { route })` followed by
`saveSessionData(sessionId, 'route', route)`.  There is no check that a
route was already committed: the update is unconditional. -/
def setRoute (st : SessionState) (r : Route) : SessionState :=
  { session := { st.session with route := some r, updated_at := st.session.updated_at + 1 },
    data := upsert "route" (routeStr r) st.data }

/-- The `advanceToStep` update lifted to a session-plus-data state. -/
def advanceToStepS (st : SessionState) (step : WorkflowStep) : SessionState :=
  { st with session := advanceToStep st.session step }

/-- A fresh session as created by `createSession` with the schema defaults
(`status 'active'`, `current_step 'brief'`, `route NULL`). -/
def freshSession (clientName industry : String) : WorkflowSession :=
  { status := "active", current_step := .brief, route := none,
    client_name := clientName, industry := industry, updated_at := 0 }

/-! ## Unit quality score (src/unnamed/part_004 line 236, part_003 line 106) -/

/-- JavaScript `Math.round`: round half toward positive infinity. -/
def jsMathRound (q : ℚ) : ℤ := ⌊q + 1 / 2⌋

/-- The `qcScore` stored for one generated unit:
`Math.round((as + ss + qs + es) / 4)` over the four artifact scores
(article, video script, quiz, exercise).  Scores are integers, for which
the IEEE-double arithmetic of the source is exact. -/
def sessionQcScore (as ss qs es : ℤ) : ℤ :=
  jsMathRound (((as + ss + qs + es : ℤ) : ℚ) / 4)

/-! ## Progress broadcaster (src/unnamed/part_004 lines 65-94) -/

/-- The broadcaster state: the module-level
`progressStreams : Map<string, Response>` (job id ↦ the registered
connection, identified by a number), together with a log of every
`res.write` performed, as (connection, payload) pairs. -/
structure BroadcastState where
  streams : List (String × Nat)
  delivered : List (Nat × String)
  deriving DecidableEq, Repr

/-- The `GET /progress/:jobId` handler (src/unnamed/part_004 lines 65-87):
`progressStreams.set(jobId, res)` — a second subscriber for the same job
id overwrites the first — followed by the initial
`res.write('connected')` message. -/
def subscribeProgress (st : BroadcastState) (jobId : String) (conn : Nat) : BroadcastState :=
  { streams := upsert jobId conn st.streams,
    delivered := st.delivered ++ [(conn, "connected")] }

/-- The `req.on('close', ...)` handler registered by a subscriber
(src/unnamed/part_004 lines 84-86): `progressStreams.delete(jobId)`.
The handler captures only the job id — it deletes whatever registration
currently exists for that job id, never checking that the registration
still belongs to the closing connection. -/
def closeProgress (st : BroadcastState) (jobId : String) : BroadcastState :=
  { st with streams := adelete jobId st.streams }

/-- Embeds `sendProgress` (src/unnamed/part_004 lines 89-94): look up the stream
for the job id and write to it if present; if no subscriber is registered
the event is silently dropped. -/
def sendProgress (st : BroadcastState) (jobId : String) (data : String) : BroadcastState :=
  match alookup jobId st.streams with
  | some conn => { st with delivered := st.delivered ++ [(conn, data)] }
  | none => st

/-! ## Quality-control-and-fix loop (src/unnamed/part_004 lines 23-58,
src/unnamed/part_003 lines 16-47) -/

/-- The parsed result of a scoring call `chat(QC_PROMPT, ...)`:
`{score, ok, patches?}`.  A missing `patches` field and an empty patch
array behave identically in the source (`qc1.patches &&
qc1.patches.length > 0`), so both are the empty list here. -/
structure QCResponse where
  ok : Bool
  patches : List String
  score : Int
  deriving DecidableEq, Repr

/-- The external completion service as seen by one `qcAndFix` call: the
outcome of the n-th scoring call (`chat(QC_PROMPT, ...)`) and of the n-th
repair call (`prose`/`chat` with `FIX_PROMPT`).  `Except.error` models the
call throwing (network/service failure); repaired content is a string. -/
structure QCEnv where
  scoreResp : Nat → Except String QCResponse
  fixResp : Nat → Except String String
  deriving Inhabited

/-- One observable service call made by the loop. -/
inductive QCCall where
  | score
  | fix
  deriving DecidableEq, Repr

/-- The body shared verbatim by both `qcAndFix` implementations
(src/unnamed/part_003 lines 16-47, where it is the whole function, and
src/unnamed/part_004 lines 24-53, where it is the `try` block): score
once; if `!qc1.ok && qc1.patches && qc1.patches.length > 0` repair once
and re-score once, returning the fixed content with the re-score;
otherwise return the original content with the first score.  The result
carries the ordered trace of service calls; a thrown call aborts the body
with that error. -/
def qcAndFixNoCatch (env : QCEnv) (content : String) :
    Except String (String × Int) × List QCCall :=
  match env.scoreResp 0 with
  | .error e => (.error e, [.score])
  | .ok qc1 =>
    if !qc1.ok && !qc1.patches.isEmpty then
      match env.fixResp 0 with
      | .error e => (.error e, [.score, .fix])
      | .ok fixed =>
        match env.scoreResp 1 with
        | .error e => (.error e, [.score, .fix, .score])
        | .ok qc2 => (.ok (fixed, qc2.score), [.score, .fix, .score])
    else
      (.ok (content, qc1.score), [.score])

/-- Embeds `qcAndFix` of the programs routes (src/unnamed/part_004 lines 23-58):
the same body wrapped in `try { ... } catch { return { content,
score: 50 } }` — any service failure falls back to the original content
with the default score 50. -/
def qcAndFix (env : QCEnv) (content : String) : (String × Int) × List QCCall :=
  match qcAndFixNoCatch env content with
  | (.ok r, tr) => (r, tr)
  | (.error _, tr) => ((content, 50), tr)

/-! ## Session data store (src/src/gpt.ts lines 193-245:
`saveSessionData` / `getSessionData` / `getAllSessionData`) -/

/-- A JSON value as handled by `JSON.stringify`/`JSON.parse` in the
source.  Numbers are modelled as integers: every number the claims touch
is an integer, for which double arithmetic and decimal printing are
exact; fractional and exponent number syntax is outside the modelled
fragment. -/
inductive Json where
  | null
  | bool (b : Bool)
  | num (n : Int)
  | str (s : String)
  | arr (elems : List Json)
  | obj (fields : List (String × Json))

/-- String escaping of `JSON.stringify`: quote, backslash, newline, tab,
carriage return.  (Control characters other than these are not escaped;
the development never evaluates it on such texts.) -/
def quoteStr (s : String) : String :=
  "\"" ++ String.mk (s.data.flatMap fun c =>
    if c = '"' then ['\\', '"']
    else if c = '\\' then ['\\', '\\']
    else if c = '\n' then ['\\', 'n']
    else if c = '\t' then ['\\', 't']
    else if c = '\r' then ['\\', 'r']
    else [c]) ++ "\""

mutual

/-- Models `JSON.stringify` (compact form, as called with a single argument). -/
def Json.stringify : Json → String
  | .null => "null"
  | .bool true => "true"
  | .bool false => "false"
  | .num n => toString n
  | .str s => quoteStr s
  | .arr elems => "[" ++ stringifyElems elems ++ "]"
  | .obj fields => "\x7b" ++ stringifyFields fields ++ "\x7d"

/-- Comma-separated serialization of array elements. -/
def stringifyElems : List Json → String
  | [] => ""
  | [x] => Json.stringify x
  | x :: y :: rest => Json.stringify x ++ "," ++ stringifyElems (y :: rest)

/-- Comma-separated serialization of object fields. -/
def stringifyFields : List (String × Json) → String
  | [] => ""
  | [(k, v)] => quoteStr k ++ ":" ++ Json.stringify v
  | (k, v) :: f :: rest => quoteStr k ++ ":" ++ Json.stringify v ++ "," ++ stringifyFields (f :: rest)

end

/-- JSON whitespace. -/
def isJsonWs (c : Char) : Bool :=
  c = ' ' || c = '\n' || c = '\t' || c = '\r'

/-- Drop leading JSON whitespace. -/
def skipWs (l : List Char) : List Char :=
  l.dropWhile isJsonWs

/-- Parse the integer number grammar of JSON (optional minus, no leading
zero except "0" itself; fractional/exponent forms are outside the
modelled fragment). -/
def parseNum (l : List Char) : Option (Int × List Char) :=
  let (neg, l₁) := match l with
    | '-' :: rest => (true, rest)
    | _ => (false, l)
  let digits := l₁.takeWhile Char.isDigit
  let rest := l₁.dropWhile Char.isDigit
  if digits.isEmpty then none
  else if digits.length > 1 && digits.headD '0' = '0' then none
  else
    let n : Int := digits.foldl (fun acc c => acc * 10 + (c.toNat - '0'.toNat : Int)) 0
    some (if neg then -n else n, rest)

/-- Parse a JSON string body after the opening quote, handling the
escapes produced by `quoteStr` plus `\/`, `\b`, `\f`. -/
def parseStrBody (fuel : Nat) (l : List Char) (acc : List Char) : Option (String × List Char) :=
  match fuel with
  | 0 => none
  | fuel + 1 =>
    match l with
    | [] => none
    | '"' :: rest => some (String.mk acc.reverse, rest)
    | '\\' :: e :: rest =>
      match e with
      | '"' => parseStrBody fuel rest ('"' :: acc)
      | '\\' => parseStrBody fuel rest ('\\' :: acc)
      | '/' => parseStrBody fuel rest ('/' :: acc)
      | 'n' => parseStrBody fuel rest ('\n' :: acc)
      | 't' => parseStrBody fuel rest ('\t' :: acc)
      | 'r' => parseStrBody fuel rest ('\r' :: acc)
      | 'b' => parseStrBody fuel rest ('\x08' :: acc)
      | 'f' => parseStrBody fuel rest ('\x0c' :: acc)
      | _ => none
    | c :: rest => parseStrBody fuel rest (c :: acc)

mutual

/-- Recursive-descent JSON value parser (fuel-indexed; the entry point
supplies ample fuel for the input length). -/
def parseVal (fuel : Nat) (l : List Char) : Option (Json × List Char) :=
  match fuel with
  | 0 => none
  | fuel + 1 =>
    match skipWs l with
    | 'n' :: 'u' :: 'l' :: 'l' :: rest => some (.null, rest)
    | 't' :: 'r' :: 'u' :: 'e' :: rest => some (.bool true, rest)
    | 'f' :: 'a' :: 'l' :: 's' :: 'e' :: rest => some (.bool false, rest)
    | '"' :: rest =>
      match parseStrBody (rest.length + 1) rest [] with
      | some (s, rest') => some (.str s, rest')
      | none => none
    | '[' :: rest =>
      (match skipWs rest with
      | ']' :: rest' => some (.arr [], rest')
      | _ =>
        match parseElems fuel rest with
        | some (elems, rest') => some (.arr elems, rest')
        | none => none)
    | '\x7b' :: rest =>
      (match skipWs rest with
      | '\x7d' :: rest' => some (.obj [], rest')
      | _ =>
        match parseFields fuel rest with
        | some (fields, rest') => some (.obj fields, rest')
        | none => none)
    | rest =>
      match parseNum rest with
      | some (n, rest') => some (.num n, rest')
      | none => none

/-- Parse one-or-more comma-separated array elements then `]`. -/
def parseElems (fuel : Nat) (l : List Char) : Option (List Json × List Char) :=
  match fuel with
  | 0 => none
  | fuel + 1 =>
    match parseVal fuel l with
    | none => none
    | some (v, rest) =>
      match skipWs rest with
      | ',' :: rest' =>
        match parseElems fuel rest' with
        | some (vs, rest'') => some (v :: vs, rest'')
        | none => none
      | ']' :: rest' => some ([v], rest')
      | _ => none

/-- Parse one-or-more comma-separated `"key": value` fields then the
closing brace. -/
def parseFields (fuel : Nat) (l : List Char) : Option (List (String × Json) × List Char) :=
  match fuel with
  | 0 => none
  | fuel + 1 =>
    match skipWs l with
    | '"' :: rest =>
      (match parseStrBody (rest.length + 1) rest [] with
      | none => none
      | some (k, rest₁) =>
        match skipWs rest₁ with
        | ':' :: rest₂ =>
          (match parseVal fuel rest₂ with
          | none => none
          | some (v, rest₃) =>
            match skipWs rest₃ with
            | ',' :: rest₄ =>
              (match parseFields fuel rest₄ with
              | some (fs, rest₅) => some ((k, v) :: fs, rest₅)
              | none => none)
            | '\x7d' :: rest₄ => some ([(k, v)], rest₄)
            | _ => none)
        | _ => none)
    | _ => none

end

/-- Models `JSON.parse`: parse one value and require only whitespace after it;
`none` models the `JSON.parse` call throwing a `SyntaxError`. -/
def Json.parse (s : String) : Option Json :=
  match parseVal (2 * s.length + 4) s.data with
  | some (j, rest) => if (skipWs rest).isEmpty then some j else none
  | none => none

/-- The serialization performed by `saveSessionData` (src/src/gpt.ts
lines 193-205): `typeof dataValue === 'string' ? dataValue :
JSON.stringify(dataValue)`. -/
def jsEncode : Json → String
  | .str s => s
  | v => v.stringify

/-- The deserialization performed by `getSessionData` (src/src/gpt.ts
lines 207-226): `try { return JSON.parse(row.data_value) } catch
{ return row.data_value }`. -/
def jsDecode (t : String) : Json :=
  match Json.parse t with
  | some j => j
  | none => .str t

/-- The `session_data` table: (session id, data key) ↦ stored text, with
`PRIMARY KEY (session_id, data_key)`. -/
abbrev DataStore := List ((String × String) × String)

/-- Embeds `saveSessionData(sessionId, dataKey, dataValue)`:
`INSERT OR REPLACE INTO session_data ...` with the serialized value. -/
def saveSessionData (st : DataStore) (sid key : String) (v : Json) : DataStore :=
  upsert (sid, key) (jsEncode v) st

/-- Embeds `getSessionData(sessionId, dataKey)`: `SELECT data_value ... WHERE
session_id = ? AND data_key = ?`; a missing row yields `null` (`none`),
otherwise the text is JSON-parsed with fallback to the raw text. -/
def getSessionData (st : DataStore) (sid key : String) : Option Json :=
  (alookup (sid, key) st).map jsDecode

/-! ## Prompt template store (src/src/services/promptTemplateService.ts;
table queries from the database module embedded in src/src/gpt.ts lines
271-323; reset route from src/unnamed/part_004 lines 634-671) -/

/-- One row of the `prompt_templates` table (src/unnamed/part_000 schema:
`is_active BOOLEAN DEFAULT 1`, `created_at DATETIME DEFAULT
CURRENT_TIMESTAMP`).  `created_at` is modelled by a monotone counter, so
creation timestamps are distinct. -/
structure TemplateRow where
  id : String
  name : String
  category : String
  template : String
  is_active : Bool
  created_at : Nat
  deriving DecidableEq, Repr

/-- The `prompt_templates` table plus the timestamp counter. -/
structure TemplateDb where
  rows : List TemplateRow
  clock : Nat
  deriving DecidableEq, Repr

/-- Embeds `getPromptTemplate(id)`: `SELECT * FROM prompt_templates WHERE id = ?`
(id is the primary key). -/
def getPromptTemplate (db : TemplateDb) (id : String) : Option TemplateRow :=
  db.rows.find? (fun r => r.id == id)

/-- The row with the greatest `created_at` (`ORDER BY created_at DESC
LIMIT 1`; timestamps are distinct by construction). -/
def latestRow : List TemplateRow → Option TemplateRow
  | [] => none
  | r :: rest =>
    match latestRow rest with
    | none => some r
    | some best => if best.created_at > r.created_at then some best else some r

/-- Embeds `getPromptTemplateByCategory(category)`: `SELECT * ... WHERE category
= ? AND is_active = 1 ORDER BY created_at DESC LIMIT 1`. -/
def getPromptTemplateByCategory (db : TemplateDb) (cat : String) : Option TemplateRow :=
  latestRow (db.rows.filter (fun r => r.category == cat && r.is_active))

/-- Embeds `createPromptTemplate(id, name, category, template)`: `INSERT INTO
prompt_templates (id, name, category, template) VALUES (?,?,?,?)` with
the schema defaults `is_active = 1`, `created_at = CURRENT_TIMESTAMP`. -/
def createPromptTemplate (db : TemplateDb) (id name cat template : String) : TemplateDb :=
  { rows := db.rows ++ [⟨id, name, cat, template, true, db.clock⟩], clock := db.clock + 1 }

/-- Embeds `updatePromptTemplate(id, template)`: `UPDATE prompt_templates SET
template = ?, updated_at = CURRENT_TIMESTAMP WHERE id = ?`. -/
def updatePromptTemplate (db : TemplateDb) (id template : String) : TemplateDb :=
  { db with rows := db.rows.map (fun r => if r.id == id then { r with template := template } else r) }

/-- The `PromptTemplateService` instance state: the backing table and the
private in-memory `cache : Map<string, string>` keyed by category. -/
structure PTSState where
  db : TemplateDb
  cache : List (String × String)
  deriving DecidableEq, Repr

/-- Embeds `PromptTemplateService.getPrompt(category, defaultPrompt)`
(src/src/services/promptTemplateService.ts lines 36-59): serve from the
cache when present; otherwise load the active template of the category
from the store, cache and return it; fall back to the caller's default
when none is found. -/
def getPrompt (st : PTSState) (category dflt : String) : String × PTSState :=
  match alookup category st.cache with
  | some t => (t, st)
  | none =>
    match getPromptTemplateByCategory st.db category with
    | some row =>
      if row.is_active then
        (row.template, { st with cache := upsert category row.template st.cache })
      else (dflt, st)
    | none => (dflt, st)

/-- Embeds `PromptTemplateService.clearCache(category?)` (lines 64-70): drop the
one category's entry, or the whole cache when no category is given. -/
def clearCache (st : PTSState) (category : Option String) : PTSState :=
  match category with
  | some c => { st with cache := adelete c st.cache }
  | none => { st with cache := [] }

/-- Embeds `PromptTemplateService.savePrompt(id, name, category, template)`
(lines 75-99): update the row when the id exists, create it otherwise,
then clear the cache for the category. -/
def savePrompt (st : PTSState) (id name category template : String) : PTSState :=
  let db' := match getPromptTemplate st.db id with
    | some _ => updatePromptTemplate st.db id template
    | none => createPromptTemplate st.db id name category template
  clearCache { st with db := db' } (some category)

/-- One entry of `getDefaultTemplates()` (the database seed module). -/
structure TemplateSeed where
  id : String
  name : String
  category : String
  template : String
  deriving DecidableEq, Repr

/-- Embeds `seedPromptTemplates()` (database seed module): if any template rows
exist, do nothing; otherwise insert every default template. -/
def seedPromptTemplates (db : TemplateDb) (seed : List TemplateSeed) : TemplateDb :=
  if db.rows.length > 0 then db
  else seed.foldl (fun d t => createPromptTemplate d t.id t.name t.category t.template) db

/-- The `POST /:id/reset` route (src/unnamed/part_004 lines 634-671, the
first — and therefore dispatched — registration of that path): look up
the template (404 when absent), `DELETE FROM prompt_templates WHERE id =
?`, reseed the defaults (a no-op unless the table became empty), and
clear the cache for the template's category. -/
def resetTemplate (st : PTSState) (id : String) (seed : List TemplateSeed) : PTSState :=
  match getPromptTemplate st.db id with
  | none => st
  | some existing =>
    let db₁ : TemplateDb := { st.db with rows := st.db.rows.filter (fun r => !(r.id == id)) }
    let db₂ := seedPromptTemplates db₁ seed
    clearCache { st with db := db₂ } (some existing.category)

/-- The service state at first use against an empty store: no cached
entries, no stored templates. -/
def ptsEmpty : PTSState := ⟨⟨[], 0⟩, []⟩

/-! ## Template rendering (src/src/services/promptTemplateService.ts
lines 112-121, `PromptTemplateService.buildPrompt`) -/

/-- The placeholder text for a variable name: the characters of
`{{name}}`. -/
def phL (k : List Char) : List Char :=
  '\x7b' :: '\x7b' :: (k ++ ['\x7d', '\x7d'])

/-- Literal match test: does `pat` occur at the head of `s`? -/
def strMatches : List Char → List Char → Bool
  | [], _ => true
  | _ :: _, [] => false
  | p :: ps, c :: cs => p == c && strMatches ps cs

/-- JavaScript `String.prototype.replace` with a global literal pattern:
scan left to right, replacing each non-overlapping occurrence of `pat`
by `rep`.  This is what `result.replace(new RegExp('{{key}}', 'g'),
String(value))` computes on the fragment where the key contains no regex
metacharacters and the value contains no `$` replacement patterns (all
the development evaluates).  The `pat = []` guard is never hit: every
pattern used is a nonempty `{{key}}`. -/
def replaceAllL (pat rep : List Char) : List Char → List Char
  | [] => []
  | c :: cs =>
    if h : (!pat.isEmpty && strMatches pat (c :: cs)) = true then
      rep ++ replaceAllL pat rep ((c :: cs).drop pat.length)
    else
      c :: replaceAllL pat rep cs
termination_by s => s.length
decreasing_by
  · have hp : 0 < pat.length := by
      cases pat with
      | nil => simp at h
      | cons a l => simp
    simp only [List.length_drop, List.length_cons]
    omega
  · simp only [List.length_cons]
    omega

/-- Embeds `PromptTemplateService.buildPrompt` on character lists: fold over the
variable entries in order, each pass globally replacing `{{key}}` in the
running result by the value. -/
def buildPromptL (t : List Char) (vars : List (List Char × List Char)) : List Char :=
  vars.foldl (fun result kv => replaceAllL (phL kv.1) kv.2 result) t

/-- Embeds `PromptTemplateService.buildPrompt(template, variables)`
(src/src/services/promptTemplateService.ts lines 112-121): sequential
per-variable global substitution, variables listed in `Object.entries`
order with values already in their `String(value)` form. -/
def buildPrompt (template : String) (vars : List (String × String)) : String :=
  String.mk (buildPromptL template.data (vars.map fun kv => (kv.1.data, kv.2.data)))

/-- The first variable whose placeholder `{{key}}` occurs at the head of
`s` (used by the specification-side renderer). -/
def findBoundAt (vars : List (List Char × List Char)) (s : List Char) :
    Option (List Char × List Char) :=
  vars.find? fun kv => strMatches (phL kv.1) s

/-- Modelled from the spec: pure one-pass simultaneous substitution —
"every `{{name}}` occurrence in the template is replaced by the string
form of `variables[name]`; unmatched placeholders are left verbatim".  A
single scan: where a bound placeholder starts, emit its value and skip
it; every other character (including unmatched placeholders) is copied
verbatim.  Fuel-indexed; the entry point supplies fuel covering the
input. -/
def specRenderGo (vars : List (List Char × List Char)) : Nat → List Char → List Char
  | 0, s => s
  | _ + 1, [] => []
  | fuel + 1, c :: cs =>
    match findBoundAt vars (c :: cs) with
    | some kv => kv.2 ++ specRenderGo vars fuel ((c :: cs).drop (phL kv.1).length)
    | none => c :: specRenderGo vars fuel cs

/-- Modelled from the spec: the pure-substitution renderer on strings,
compared against `buildPrompt` from the source. -/
def specRender (template : String) (vars : List (String × String)) : String :=
  String.mk (specRenderGo (vars.map fun kv => (kv.1.data, kv.2.data))
    template.length template.data)

/-- A structured template: an alternating sequence of literal segments
and placeholders, flattened to the text the renderers receive. -/
inductive TItem where
  | lit (s : List Char)
  | ph (n : List Char)
  deriving DecidableEq, Repr

/-- The template text denoted by a structured template. -/
def flattenT : List TItem → List Char
  | [] => []
  | .lit s :: rest => s ++ flattenT rest
  | .ph n :: rest => phL n ++ flattenT rest

/-- Pointwise rendering of a structured template: a bound placeholder
becomes its first binding's value, an unbound one stays verbatim. -/
def renderT (vars : List (List Char × List Char)) : List TItem → List Char
  | [] => []
  | .lit s :: rest => s ++ renderT vars rest
  | .ph n :: rest =>
    (match alookup n vars with
     | some v => v
     | none => phL n) ++ renderT vars rest

/-- A text with no brace characters (so it can neither contain nor help
form a placeholder). -/
def braceFree (s : List Char) : Prop :=
  '\x7b' ∉ s ∧ '\x7d' ∉ s

instance (s : List Char) : Decidable (braceFree s) := by
  unfold braceFree
  infer_instance

/-- Well-formedness of a structured-template item: its literal text or
its placeholder name is brace-free. -/
def itemOk : TItem → Prop
  | .lit s => braceFree s
  | .ph n => braceFree n

/-- One substitution pass on a structured template: the matched
placeholder becomes a literal carrying the value. -/
def substItems (k v : List Char) (items : List TItem) : List TItem :=
  items.map fun it =>
    match it with
    | .ph n => if n = k then .lit v else .ph n
    | .lit s => .lit s

instance (it : TItem) : Decidable (itemOk it) := by
  cases it <;> exact inferInstanceAs (Decidable (braceFree _))

/-- One variable pass on a single structured-template item. -/
def subItemStep (it : TItem) (kv : List Char × List Char) : TItem :=
  match it with
  | .ph n => if n = kv.1 then .lit kv.2 else .ph n
  | .lit s => .lit s

/-- All variable passes, in order, on a single item. -/
def subItemVar (vars : List (List Char × List Char)) (it : TItem) : TItem :=
  vars.foldl subItemStep it

theorem alookup_upsert {α β : Type} [DecidableEq α] (k : α) (v : β) (l : List (α × β)) :
    alookup k (upsert k v l) = some v := by
  induction l with
  | nil => simp [upsert, alookup]
  | cons hd tl ih =>
    by_cases h : hd.1 = k
    · simp [upsert, h, alookup]
    · simp [upsert, h, alookup, ih]

theorem alookup_adelete {α β : Type} [DecidableEq α] (k : α) (l : List (α × β)) :
    alookup k (adelete k l) = none := by
  induction l with
  | nil => simp [adelete, alookup]
  | cons hd tl ih =>
    by_cases h : hd.1 = k
    · simpa [adelete, h] using ih
    · simpa [adelete, h, alookup] using ih

/-! ## General store lemmas -/

theorem upsert_upsert {α β : Type} [DecidableEq α] (k : α) (v₁ v₂ : β) (l : List (α × β)) :
    upsert k v₂ (upsert k v₁ l) = upsert k v₂ l := by
  induction l with
  | nil => simp [upsert]
  | cons hd tl ih =>
    by_cases h : hd.1 = k
    · simp [upsert, h]
    · simp [upsert, h, ih]

/-! ## Claim theorems: workflow state machine -/

/-- Claim C1 counterexample: from a fresh session at step `brief` (whose
only successor under `getNextStep` is `route_selection`), a call of
`advanceToStep` targeting `completed` — a step not in the successor set —
does not fail and does not leave `current_step` unchanged: it succeeds
and sets `current_step` to `completed`. -/
theorem advanceToStep_no_validation_cex :
    getNextStep (freshSession "Acme" "Retail").current_step (freshSession "Acme" "Retail").route
      = .route_selection ∧
    WorkflowStep.completed ≠ WorkflowStep.route_selection ∧
    (advanceToStep (freshSession "Acme" "Retail") .completed).current_step = .completed ∧
    (freshSession "Acme" "Retail").current_step ≠ .completed := by
  refine ⟨rfl, by decide, rfl, by decide⟩

/-- Claim C1 as amended: `advanceToStep` performs no validation at all.
For every session and every target step — in the successor set of
`getNextStep` or not — the call succeeds and `current_step` afterwards
equals the target; in particular this holds for the legal successor
`getNextStep current route`, and no `InvalidTransition` failure exists. -/
theorem advanceToStep_always_sets_step (s : WorkflowSession) (step : WorkflowStep) :
    (advanceToStep s step).current_step = step ∧
    (advanceToStep s (getNextStep s.current_step s.route)).current_step
      = getNextStep s.current_step s.route :=
  ⟨rfl, rfl⟩

/-- Claim C2 counterexample: commit route `A`, enter the first step of
route `A` (`route_a_upload`), then call `setRoute` with `B`: the call
does not fail and does not leave the route unchanged — the session's
route becomes `B`. -/
theorem setRoute_not_immutable_cex :
    (advanceToStepS (setRoute ⟨freshSession "Acme" "Retail", []⟩ .A) .route_a_upload).session.route
      = some .A ∧
    (advanceToStepS (setRoute ⟨freshSession "Acme" "Retail", []⟩ .A) .route_a_upload).session.current_step
      = .route_a_upload ∧
    (setRoute (advanceToStepS (setRoute ⟨freshSession "Acme" "Retail", []⟩ .A) .route_a_upload) .B).session.route
      = some .B ∧
    (some Route.B : Option Route) ≠ some Route.A := by
  refine ⟨rfl, rfl, rfl, by decide⟩

/-- Claim C2 as amended: `setRoute` is not a one-time commitment: for
every session state — including one where a route was already set and
its first step entered — `setRoute` succeeds, overwrites the session's
route with the new value, and rewrites the `route` step-data row
(last-write-wins). -/
theorem setRoute_overwrites (st : SessionState) (r : Route) :
    (setRoute st r).session.route = some r ∧
    alookup "route" (setRoute st r).data = some (routeStr r) :=
  ⟨rfl, alookup_upsert _ _ _⟩

/-! ## Claim theorems: quality-control-and-fix loop -/

/-- Claim C3: the loop performs at most one repair.  If the first scoring
call returns `ok = true` or proposes no patches, the original artifact is
returned with the first score and the trace shows a single scoring call —
no repair, no re-score.  If `ok = false` and patches exist, the trace is
exactly score–fix–score and the revised artifact is returned with the
re-score `qc2.score`, whatever that re-score is (`qc2` is arbitrary,
including a still-failing one). -/
theorem qcAndFix_one_pass :
    (∀ (env : QCEnv) (content : String) (qc1 : QCResponse),
      env.scoreResp 0 = .ok qc1 → (qc1.ok = true ∨ qc1.patches = []) →
      qcAndFix env content = ((content, qc1.score), [.score])) ∧
    (∀ (env : QCEnv) (content : String) (qc1 : QCResponse) (fixed : String) (qc2 : QCResponse),
      env.scoreResp 0 = .ok qc1 → qc1.ok = false → qc1.patches ≠ [] →
      env.fixResp 0 = .ok fixed → env.scoreResp 1 = .ok qc2 →
      qcAndFix env content = ((fixed, qc2.score), [.score, .fix, .score])) := by
  constructor
  · intro env content qc1 h1 h2
    have hcond : (!qc1.ok && !qc1.patches.isEmpty) = false := by
      rcases h2 with h | h <;> simp [h]
    simp [qcAndFix, qcAndFixNoCatch, h1, hcond]
  · intro env content qc1 fixed qc2 h1 hok hp hfix h2
    have hcond : (!qc1.ok && !qc1.patches.isEmpty) = true := by
      simp [hok, List.isEmpty_iff, hp]
    simp [qcAndFix, qcAndFixNoCatch, h1, hcond, hfix, h2]

/-- Witness for C3 at concrete stubs: a passing first score is accepted
as-is after one scoring call; a failing first score with one patch leads
to exactly one repair and one re-score, and the still-failing re-score 30
is accepted. -/
theorem qcAndFix_one_pass_witness :
    qcAndFix ⟨fun _ => .ok ⟨true, [], 80⟩, fun _ => .ok "unused"⟩ "art"
      = (("art", 80), [.score]) ∧
    qcAndFix ⟨fun n => if n = 0 then .ok ⟨false, ["patch"], 40⟩ else .ok ⟨false, ["more"], 30⟩,
              fun _ => .ok "fixed"⟩ "art"
      = (("fixed", 30), [.score, .fix, .score]) :=
  ⟨qcAndFix_one_pass.1 _ "art" ⟨true, [], 80⟩ rfl (Or.inl rfl),
   qcAndFix_one_pass.2 _ "art" ⟨false, ["patch"], 40⟩ "fixed" ⟨false, ["more"], 30⟩
     rfl rfl (by simp) rfl rfl⟩

/-- Claim C4 counterexample: the sessions-route copy of the loop
(src/unnamed/part_003 lines 16-47) has no try/catch: with a scoring stub
that throws, it propagates the error to its caller instead of returning
the original artifact with fallback score 50. -/
theorem qcAndFixNoCatch_propagates_cex :
    (qcAndFixNoCatch ⟨fun _ => .error "service down", fun _ => .ok "f"⟩ "art").1
      = .error "service down" ∧
    (qcAndFixNoCatch ⟨fun _ => .error "service down", fun _ => .ok "f"⟩ "art").1
      ≠ .ok ("art", 50) := by
  exact ⟨rfl, by simp [qcAndFixNoCatch]⟩

/-- Claim C4 as amended: the programs-route loop (src/unnamed/part_004)
wraps the body in try/catch and never propagates a service failure:
whether the first scoring call, the repair call, or the re-scoring call
throws, it returns the original artifact unchanged with fallback score
50.  (The sessions-route copy in src/unnamed/part_003 lacks the catch and
propagates instead — see the counterexample.) -/
theorem qcAndFix_catch_fallback :
    (∀ (env : QCEnv) (content : String) (e : String),
      env.scoreResp 0 = .error e → qcAndFix env content = ((content, 50), [.score])) ∧
    (∀ (env : QCEnv) (content : String) (qc1 : QCResponse) (e : String),
      env.scoreResp 0 = .ok qc1 → qc1.ok = false → qc1.patches ≠ [] →
      env.fixResp 0 = .error e → qcAndFix env content = ((content, 50), [.score, .fix])) ∧
    (∀ (env : QCEnv) (content : String) (qc1 : QCResponse) (fixed : String) (e : String),
      env.scoreResp 0 = .ok qc1 → qc1.ok = false → qc1.patches ≠ [] →
      env.fixResp 0 = .ok fixed → env.scoreResp 1 = .error e →
      qcAndFix env content = ((content, 50), [.score, .fix, .score])) := by
  refine ⟨?_, ?_, ?_⟩
  · intro env content e h1
    simp [qcAndFix, qcAndFixNoCatch, h1]
  · intro env content qc1 e h1 hok hp hfix
    have hcond : (!qc1.ok && !qc1.patches.isEmpty) = true := by
      simp [hok, List.isEmpty_iff, hp]
    simp [qcAndFix, qcAndFixNoCatch, h1, hcond, hfix]
  · intro env content qc1 fixed e h1 hok hp hfix h2
    have hcond : (!qc1.ok && !qc1.patches.isEmpty) = true := by
      simp [hok, List.isEmpty_iff, hp]
    simp [qcAndFix, qcAndFixNoCatch, h1, hcond, hfix, h2]

/-- Witness for C4's amended theorem at concrete stubs: a throwing first
score, a throwing repair, and a throwing re-score each yield the original
artifact with score 50. -/
theorem qcAndFix_catch_fallback_witness :
    qcAndFix ⟨fun _ => .error "boom", fun _ => .ok "f"⟩ "art" = (("art", 50), [.score]) ∧
    qcAndFix ⟨fun _ => .ok ⟨false, ["p"], 40⟩, fun _ => .error "boom"⟩ "art"
      = (("art", 50), [.score, .fix]) ∧
    qcAndFix ⟨fun n => if n = 0 then .ok ⟨false, ["p"], 40⟩ else .error "boom",
              fun _ => .ok "fixed"⟩ "art"
      = (("art", 50), [.score, .fix, .score]) :=
  ⟨qcAndFix_catch_fallback.1 _ "art" "boom" rfl,
   qcAndFix_catch_fallback.2.1 _ "art" ⟨false, ["p"], 40⟩ "boom" rfl rfl (by simp) rfl,
   qcAndFix_catch_fallback.2.2 _ "art" ⟨false, ["p"], 40⟩ "fixed" "boom" rfl rfl (by simp) rfl rfl⟩

/-! ## Claim theorems: unit quality score -/

/-- Claim C9: the unit's overall quality score
`Math.round((as + ss + qs + es) / 4)` equals the arithmetic mean of the
four artifact scores rounded to the nearest integer (`round`, half away
toward positive infinity, exactly JavaScript `Math.round`), and it is
within 1/2 of the exact mean. -/
theorem sessionQcScore_is_rounded_mean (as ss qs es : ℤ) :
    sessionQcScore as ss qs es = round (((as + ss + qs + es : ℤ) : ℚ) / 4) ∧
    |(sessionQcScore as ss qs es : ℚ) - ((as + ss + qs + es : ℤ) : ℚ) / 4| ≤ 1 / 2 := by
  have h : sessionQcScore as ss qs es = round (((as + ss + qs + es : ℤ) : ℚ) / 4) := by
    rw [sessionQcScore, jsMathRound, round_eq]
  refine ⟨h, ?_⟩
  rw [h, abs_sub_comm]
  exact abs_sub_round (((as + ss + qs + es : ℤ) : ℚ) / 4)

/-! ## Claim theorems: progress broadcaster -/

/-- Claim C7 counterexample: subscriber 1 registers for a job, subscriber
2 takes over, then the superseded subscriber 1 disconnects.  Its close
handler deletes the job's registration outright, so subscriber 2 is no
longer registered and the next event is dropped — not delivered to the
current subscriber as the claim requires. -/
theorem progress_close_deletes_takeover_cex :
    alookup "job" (subscribeProgress (subscribeProgress ⟨[], []⟩ "job" 1) "job" 2).streams
      = some 2 ∧
    alookup "job" (closeProgress (subscribeProgress (subscribeProgress ⟨[], []⟩ "job" 1) "job" 2) "job").streams
      = none ∧
    sendProgress (closeProgress (subscribeProgress (subscribeProgress ⟨[], []⟩ "job" 1) "job" 2) "job") "job" "ev"
      = closeProgress (subscribeProgress (subscribeProgress ⟨[], []⟩ "job" 1) "job" 2) "job" ∧
    (2, "ev") ∉ (sendProgress (closeProgress (subscribeProgress (subscribeProgress ⟨[], []⟩ "job" 1) "job" 2) "job") "job" "ev").delivered := by
  refine ⟨rfl, rfl, rfl, by decide⟩

/-- Claim C7 as amended: a second subscriber for the same job id silently
takes over (last-registered wins) and subsequent events go to it alone;
but on any disconnect whose close handler fires for that job id the job's
registration is removed regardless of which connection it now belongs to,
so after a takeover the superseded connection's disconnect deregisters
the current subscriber; events emitted while no subscriber is registered
are dropped without error (the state is unchanged), in particular every
event after a disconnect. -/
theorem progress_broadcast_semantics (st : BroadcastState) (j : String) (c₁ c₂ : Nat) (d : String) :
    alookup j (subscribeProgress (subscribeProgress st j c₁) j c₂).streams = some c₂ ∧
    (sendProgress (subscribeProgress (subscribeProgress st j c₁) j c₂) j d).delivered
      = (subscribeProgress (subscribeProgress st j c₁) j c₂).delivered ++ [(c₂, d)] ∧
    alookup j (closeProgress st j).streams = none ∧
    sendProgress (closeProgress st j) j d = closeProgress st j := by
  refine ⟨?_, ?_, alookup_adelete j st.streams, ?_⟩
  · simp [subscribeProgress, upsert_upsert, alookup_upsert]
  · simp [sendProgress, subscribeProgress, upsert_upsert, alookup_upsert]
  · simp [sendProgress, closeProgress, alookup_adelete]

/-! ## Claim theorems: session data store -/

/-- Claim C8 counterexample: write the string `"hello"`, overwrite it
with the string `"123"`, read the key back: the result is the JSON
number `123`, not the written string value `"123"` — the read is only
faithful up to JSON round-tripping. -/
theorem saveSessionData_read_not_identity_cex :
    getSessionData (saveSessionData (saveSessionData [] "s1" "k" (.str "hello")) "s1" "k" (.str "123")) "s1" "k"
      = some (.num 123) ∧
    some (Json.num 123) ≠ some (Json.str "123") := by
  refine ⟨rfl, by simp⟩

/-- Claim C8 as amended: `saveSessionData` has replace semantics — two
consecutive writes to the same (session, key) are equivalent to the
second write alone, the write never fails, and a read after the writes
returns the JSON-decode of the second value's serialization; that equals
the written value itself whenever the value survives the JSON round trip
(every value except a string whose own text parses as JSON). -/
theorem saveSessionData_replace_semantics :
    (∀ (st : DataStore) (sid k : String) (v₁ v₂ : Json),
      saveSessionData (saveSessionData st sid k v₁) sid k v₂ = saveSessionData st sid k v₂) ∧
    (∀ (st : DataStore) (sid k : String) (v : Json),
      getSessionData (saveSessionData st sid k v) sid k = some (jsDecode (jsEncode v))) ∧
    (∀ (st : DataStore) (sid k : String) (v₁ v₂ : Json), jsDecode (jsEncode v₂) = v₂ →
      getSessionData (saveSessionData (saveSessionData st sid k v₁) sid k v₂) sid k = some v₂) := by
  refine ⟨?_, ?_, ?_⟩
  · intro st sid k v₁ v₂
    exact upsert_upsert (sid, k) (jsEncode v₁) (jsEncode v₂) st
  · intro st sid k v
    simp [getSessionData, saveSessionData, alookup_upsert]
  · intro st sid k v₁ v₂ h
    have hcollapse : saveSessionData (saveSessionData st sid k v₁) sid k v₂ = saveSessionData st sid k v₂ :=
      upsert_upsert (sid, k) (jsEncode v₁) (jsEncode v₂) st
    rw [hcollapse]
    simp [getSessionData, saveSessionData, alookup_upsert, h]

/-- Witness for C8's amended theorem: the string `"plain"` does not parse
as JSON, so after two writes the read returns it unchanged. -/
theorem saveSessionData_replace_semantics_witness :
    jsDecode (jsEncode (.str "plain")) = .str "plain" ∧
    getSessionData (saveSessionData (saveSessionData [] "s1" "k" (.str "x")) "s1" "k" (.str "plain")) "s1" "k"
      = some (.str "plain") :=
  ⟨rfl, saveSessionData_replace_semantics.2.2 [] "s1" "k" (.str "x") (.str "plain") rfl⟩

/-- Claim C10: reading step data returns `JSON.parse` of the stored text
when it is valid JSON and the raw text otherwise; a save-then-read round
trip therefore preserves a value only up to JSON round-tripping — saving
the plain strings `"123"` and `"{"a":1}"` reads back the JSON number
`123` and the object `{a: 1}`, not the original strings. -/
theorem getSessionData_json_roundtrip :
    (∀ t : String, jsDecode t = (Json.parse t).getD (.str t)) ∧
    (∀ (st : DataStore) (sid k : String) (v : Json),
      getSessionData (saveSessionData st sid k v) sid k = some (jsDecode (jsEncode v))) ∧
    getSessionData (saveSessionData [] "s1" "k" (.str "123")) "s1" "k" = some (.num 123) ∧
    getSessionData (saveSessionData [] "s1" "k" (.str "\x7b\"a\":1\x7d")) "s1" "k"
      = some (.obj [("a", .num 1)]) ∧
    Json.parse "raw text" = none ∧
    jsDecode "raw text" = .str "raw text" := by
  refine ⟨?_, ?_, rfl, rfl, rfl, rfl⟩
  · intro t
    rw [jsDecode]
    rcases Json.parse t with _ | j <;> rfl
  · intro st sid k v
    simp [getSessionData, saveSessionData, alookup_upsert]

theorem latestRow_mem (l : List TemplateRow) (r : TemplateRow) (h : latestRow l = some r) :
    r ∈ l := by
  induction l with
  | nil => simp [latestRow] at h
  | cons a tl ih =>
    rw [latestRow] at h
    rcases hlt : latestRow tl with _ | best
    · rw [hlt] at h
      simp at h
      simp [h]
    · rw [hlt] at h
      by_cases hc : best.created_at > a.created_at
      · simp [hc] at h
        exact List.mem_cons_of_mem a (ih (h ▸ hlt))
      · simp [hc] at h
        simp [h]

theorem seeded_rows_mem (seed : List TemplateSeed) (db : TemplateDb) (r : TemplateRow)
    (h : r ∈ (seed.foldl (fun d t => createPromptTemplate d t.id t.name t.category t.template) db).rows) :
    r ∈ db.rows ∨ ∃ t ∈ seed, r.category = t.category ∧ r.template = t.template := by
  induction seed generalizing db with
  | nil => exact Or.inl h
  | cons t ts ih =>
    rw [List.foldl_cons] at h
    rcases ih (createPromptTemplate db t.id t.name t.category t.template) h with hm | ⟨u, hu, hcat, htmp⟩
    · rw [createPromptTemplate] at hm
      rcases List.mem_append.mp hm with hm | hm
      · exact Or.inl hm
      · simp at hm
        exact Or.inr ⟨t, List.mem_cons_self t ts, by simp [hm]⟩
    · exact Or.inr ⟨u, List.mem_cons_of_mem t hu, hcat, htmp⟩

/-- Claim C6: against an empty store and cache, `getPrompt` returns the
compiled-in default; after `savePrompt` for the category (a create, then
— with the cache warmed by the intervening read — an update of the same
id) the next `getPrompt` returns the newly saved value, not the stale
cached one; after the reset route runs for that template the next
`getPrompt` returns the default again.  `hseed` states that the seeded
default for the category (if the category is seeded at all) is the same
text as the compiled-in default passed by the caller. -/
theorem promptTemplate_cache_invalidation
    (cat d id name v₁ v₂ : String) (seed : List TemplateSeed)
    (hseed : ∀ t ∈ seed, t.category = cat → t.template = d) :
    (getPrompt ptsEmpty cat d).1 = d ∧
    (getPrompt (savePrompt (getPrompt ptsEmpty cat d).2 id name cat v₁) cat d).1 = v₁ ∧
    (getPrompt (savePrompt (getPrompt (savePrompt (getPrompt ptsEmpty cat d).2 id name cat v₁) cat d).2 id name cat v₂) cat d).1 = v₂ ∧
    (getPrompt (resetTemplate (getPrompt (savePrompt (getPrompt (savePrompt (getPrompt ptsEmpty cat d).2 id name cat v₁) cat d).2 id name cat v₂) cat d).2 id seed) cat d).1 = d := by
  have hg0 : getPrompt ptsEmpty cat d = (d, ptsEmpty) := rfl
  have hst1 : savePrompt ptsEmpty id name cat v₁
      = (⟨⟨[⟨id, name, cat, v₁, true, 0⟩], 1⟩, []⟩ : PTSState) := rfl
  have hg1 : getPrompt (⟨⟨[⟨id, name, cat, v₁, true, 0⟩], 1⟩, []⟩ : PTSState) cat d
      = (v₁, ⟨⟨[⟨id, name, cat, v₁, true, 0⟩], 1⟩, [(cat, v₁)]⟩) := by
    simp [getPrompt, alookup, getPromptTemplateByCategory, List.filter_cons, latestRow, upsert]
  have hst2 : savePrompt (⟨⟨[⟨id, name, cat, v₁, true, 0⟩], 1⟩, [(cat, v₁)]⟩ : PTSState) id name cat v₂
      = (⟨⟨[⟨id, name, cat, v₂, true, 0⟩], 1⟩, []⟩ : PTSState) := by
    simp [savePrompt, getPromptTemplate, List.find?, updatePromptTemplate, clearCache, adelete,
      List.filter_cons]
  have hg2 : getPrompt (⟨⟨[⟨id, name, cat, v₂, true, 0⟩], 1⟩, []⟩ : PTSState) cat d
      = (v₂, ⟨⟨[⟨id, name, cat, v₂, true, 0⟩], 1⟩, [(cat, v₂)]⟩) := by
    simp [getPrompt, alookup, getPromptTemplateByCategory, List.filter_cons, latestRow, upsert]
  have hst3 : resetTemplate (⟨⟨[⟨id, name, cat, v₂, true, 0⟩], 1⟩, [(cat, v₂)]⟩ : PTSState) id seed
      = (⟨seedPromptTemplates ⟨[], 1⟩ seed, []⟩ : PTSState) := by
    simp [resetTemplate, getPromptTemplate, List.find?, clearCache, adelete, List.filter_cons]
  have hfinal : (getPrompt (⟨seedPromptTemplates ⟨[], 1⟩ seed, []⟩ : PTSState) cat d).1 = d := by
    rcases hby : getPromptTemplateByCategory (seedPromptTemplates ⟨[], 1⟩ seed) cat with _ | row
    · simp [getPrompt, alookup, hby]
    · have hmem : row ∈ (seedPromptTemplates ⟨[], 1⟩ seed).rows
          ∧ (row.category == cat && row.is_active) = true := by
        have := latestRow_mem _ _ (by rw [getPromptTemplateByCategory] at hby; exact hby)
        exact List.mem_filter.mp this
      have hseeded : seedPromptTemplates (⟨[], 1⟩ : TemplateDb) seed
          = seed.foldl (fun d t => createPromptTemplate d t.id t.name t.category t.template) ⟨[], 1⟩ := rfl
      have hcat : row.category = cat := by
        have := hmem.2
        simp at this
        exact this.1
      have htmp : row.template = d := by
        rcases seeded_rows_mem seed ⟨[], 1⟩ row (hseeded ▸ hmem.1) with hm | ⟨t, ht, hc, hv⟩
        · simp at hm
        · exact hv.trans (hseed t ht (hc ▸ hcat))
      simp [getPrompt, alookup, hby, htmp]
      split <;> rfl
  refine ⟨by rw [hg0], ?_, ?_, ?_⟩
  · rw [hg0]
    show (getPrompt (savePrompt ptsEmpty id name cat v₁) cat d).1 = v₁
    rw [hst1, hg1]
  · rw [hg0]
    show (getPrompt (savePrompt (getPrompt (savePrompt ptsEmpty id name cat v₁) cat d).2 id name cat v₂) cat d).1 = v₂
    rw [hst1, hg1]
    show (getPrompt (savePrompt (⟨⟨[⟨id, name, cat, v₁, true, 0⟩], 1⟩, [(cat, v₁)]⟩ : PTSState) id name cat v₂) cat d).1 = v₂
    rw [hst2, hg2]
  · rw [hg0]
    show (getPrompt (resetTemplate (getPrompt (savePrompt (getPrompt (savePrompt ptsEmpty id name cat v₁) cat d).2 id name cat v₂) cat d).2 id seed) cat d).1 = d
    rw [hst1, hg1]
    show (getPrompt (resetTemplate (getPrompt (savePrompt (⟨⟨[⟨id, name, cat, v₁, true, 0⟩], 1⟩, [(cat, v₁)]⟩ : PTSState) id name cat v₂) cat d).2 id seed) cat d).1 = d
    rw [hst2, hg2]
    show (getPrompt (resetTemplate (⟨⟨[⟨id, name, cat, v₂, true, 0⟩], 1⟩, [(cat, v₂)]⟩ : PTSState) id seed) cat d).1 = d
    rw [hst3]
    exact hfinal

/-- Witness for C6 at a concrete category, default, saved values, and a
one-entry seed whose template for the category is the default text. -/
theorem promptTemplate_cache_invalidation_witness :
    (∀ t ∈ [(⟨"arc-gen-001", "Learning Arc Generation", "arc_generation", "DEFAULT"⟩ : TemplateSeed)],
      t.category = "arc_generation" → t.template = "DEFAULT") ∧
    (getPrompt (resetTemplate (getPrompt (savePrompt (getPrompt (savePrompt (getPrompt ptsEmpty "arc_generation" "DEFAULT").2 "arc-gen-001" "n" "arc_generation" "V1") "arc_generation" "DEFAULT").2 "arc-gen-001" "n" "arc_generation" "V2") "arc_generation" "DEFAULT").2 "arc-gen-001"
        [(⟨"arc-gen-001", "Learning Arc Generation", "arc_generation", "DEFAULT"⟩ : TemplateSeed)]) "arc_generation" "DEFAULT").1
      = "DEFAULT" :=
  ⟨by decide,
   (promptTemplate_cache_invalidation "arc_generation" "DEFAULT" "arc-gen-001" "n" "V1" "V2"
     [⟨"arc-gen-001", "Learning Arc Generation", "arc_generation", "DEFAULT"⟩] (by decide)).2.2.2⟩

theorem strMatches_self_append (p t : List Char) : strMatches p (p ++ t) = true := by
  induction p with
  | nil => rfl
  | cons a l ih => simp [strMatches, ih]

theorem replaceAllL_step_nomatch (pat rep : List Char) (c : Char) (cs : List Char)
    (h : strMatches pat (c :: cs) = false) :
    replaceAllL pat rep (c :: cs) = c :: replaceAllL pat rep cs := by
  have hc : ¬((!pat.isEmpty && strMatches pat (c :: cs)) = true) := by simp [h]
  simp only [replaceAllL]
  rw [dif_neg hc]

theorem replaceAllL_step_match (pat rep : List Char) (c : Char) (cs : List Char)
    (hp : pat.isEmpty = false) (h : strMatches pat (c :: cs) = true) :
    replaceAllL pat rep (c :: cs) = rep ++ replaceAllL pat rep ((c :: cs).drop pat.length) := by
  have hc : (!pat.isEmpty && strMatches pat (c :: cs)) = true := by simp [hp, h]
  simp only [replaceAllL]
  rw [dif_pos hc]

theorem replaceAllL_head_match (pat rep t : List Char) (hp : pat ≠ []) :
    replaceAllL pat rep (pat ++ t) = rep ++ replaceAllL pat rep t := by
  cases pat with
  | nil => exact absurd rfl hp
  | cons a l =>
    rw [List.cons_append]
    rw [replaceAllL_step_match (a :: l) rep a (l ++ t) (by simp)
      (by simpa using strMatches_self_append (a :: l) t)]
    congr 1
    rw [List.length_cons, List.drop_succ_cons, List.drop_left]

theorem replaceAllL_skip_seg (pat rep t : List Char) (p₀ : Char) (hhead : pat.head? = some p₀) :
    ∀ s : List Char, p₀ ∉ s →
      replaceAllL pat rep (s ++ t) = s ++ replaceAllL pat rep t := by
  cases pat with
  | nil => simp at hhead
  | cons a ps =>
    have ha : a = p₀ := by simpa using hhead
    subst ha
    intro s
    induction s with
    | nil => intro _; simp
    | cons c s' ih =>
      intro hs
      have hp : a ≠ c := fun h => hs (by simp [h])
      have hb : (a == c) = false := beq_eq_false_iff_ne.mpr hp
      have hmf : strMatches (a :: ps) (c :: (s' ++ t)) = false := by
        simp [strMatches, hb]
      rw [List.cons_append, replaceAllL_step_nomatch _ _ _ _ hmf,
        ih (fun hmem => hs (List.mem_cons_of_mem c hmem)), List.cons_append]

theorem strMatches_close_close_false (t : List Char) :
    ∀ k m : List Char, '\x7d' ∉ k → '\x7d' ∉ m → k ≠ m →
      strMatches (k ++ ['\x7d', '\x7d']) (m ++ '\x7d' :: '\x7d' :: t) = false := by
  intro k
  induction k with
  | nil =>
    intro m hk hm hne
    cases m with
    | nil => exact absurd rfl hne
    | cons b m' =>
      have hb : ('\x7d' == b) = false :=
        beq_eq_false_iff_ne.mpr (fun h => hm (by simp [h.symm]))
      simp [strMatches, hb]
  | cons a k' ih =>
    intro m hk hm hne
    cases m with
    | nil =>
      have ha : (a == '\x7d') = false :=
        beq_eq_false_iff_ne.mpr (fun h => hk (by simp [h]))
      simp [strMatches, ha]
    | cons b m' =>
      by_cases hab : a = b
      · subst hab
        have hk' : '\x7d' ∉ k' := fun h => hk (List.mem_cons_of_mem a h)
        have hm' : '\x7d' ∉ m' := fun h => hm (List.mem_cons_of_mem a h)
        have hne' : k' ≠ m' := fun h => hne (by rw [h])
        simpa [strMatches] using ih m' hk' hm' hne'
      · have hab' : (a == b) = false := beq_eq_false_iff_ne.mpr hab
        simp [strMatches, hab']

theorem replaceAllL_ph_miss (k m rep t : List Char)
    (hk : braceFree k) (hm : braceFree m) (hne : k ≠ m) :
    replaceAllL (phL k) rep (phL m ++ t) = phL m ++ replaceAllL (phL k) rep t := by
  have hcc : ('\x7b' == '\x7d') = false := by decide
  have hxm : phL m ++ t = '\x7b' :: ('\x7b' :: (m ++ ('\x7d' :: ('\x7d' :: t)))) := by
    simp [phL]
  have h1 : strMatches (phL k) ('\x7b' :: ('\x7b' :: (m ++ ('\x7d' :: ('\x7d' :: t))))) = false := by
    have hmm := strMatches_close_close_false t k m hk.2 hm.2 hne
    simp [phL, strMatches, hmm]
  have h2 : strMatches (phL k) ('\x7b' :: (m ++ ('\x7d' :: ('\x7d' :: t)))) = false := by
    cases m with
    | nil => simp [phL, strMatches, hcc]
    | cons b m' =>
      have hb : ('\x7b' == b) = false :=
        beq_eq_false_iff_ne.mpr (fun h => hm.1 (by simp [h.symm]))
      simp [phL, strMatches, hb]
  have h3 : strMatches (phL k) ('\x7d' :: ('\x7d' :: t)) = false := by
    simp [phL, strMatches, hcc]
  have h4 : strMatches (phL k) ('\x7d' :: t) = false := by
    simp [phL, strMatches, hcc]
  rw [hxm]
  rw [replaceAllL_step_nomatch _ _ _ _ h1]
  rw [replaceAllL_step_nomatch _ _ _ _ h2]
  rw [replaceAllL_skip_seg (phL k) rep ('\x7d' :: ('\x7d' :: t)) '\x7b' rfl m hm.1]
  rw [replaceAllL_step_nomatch _ _ _ _ h3]
  rw [replaceAllL_step_nomatch _ _ _ _ h4]
  simp [phL]

theorem replaceAllL_flattenT (k v : List Char) (hk : braceFree k) :
    ∀ items : List TItem, (∀ it ∈ items, itemOk it) →
      replaceAllL (phL k) v (flattenT items) = flattenT (substItems k v items) := by
  intro items
  induction items with
  | nil => intro _; simp [flattenT, substItems, replaceAllL]
  | cons it rest ih =>
    intro hok
    have hit : itemOk it := hok it (List.mem_cons_self _ _)
    have hrest : ∀ x ∈ rest, itemOk x := fun x hx => hok x (List.mem_cons_of_mem it hx)
    cases it with
    | lit s =>
      have hs : '\x7b' ∉ s := (show braceFree s from hit).1
      rw [show flattenT (.lit s :: rest) = s ++ flattenT rest from rfl]
      rw [replaceAllL_skip_seg (phL k) v (flattenT rest) '\x7b' rfl s hs]
      rw [ih hrest]
      rfl
    | ph n =>
      by_cases hn : n = k
      · subst hn
        rw [show flattenT (.ph n :: rest) = phL n ++ flattenT rest from rfl]
        rw [replaceAllL_head_match (phL n) v (flattenT rest) (by simp [phL])]
        rw [ih hrest]
        simp [substItems, flattenT]
      · have hnk : k ≠ n := fun h => hn h.symm
        have hno : braceFree n := hit
        rw [show flattenT (.ph n :: rest) = phL n ++ flattenT rest from rfl]
        rw [replaceAllL_ph_miss k n v (flattenT rest) hk hno hnk]
        rw [ih hrest]
        simp [substItems, flattenT, hn]

theorem substItems_ok (k v : List Char) (hv : braceFree v) (items : List TItem)
    (h : ∀ it ∈ items, itemOk it) :
    ∀ it ∈ substItems k v items, itemOk it := by
  intro it hit
  obtain ⟨x, hx, hfx⟩ := List.mem_map.mp hit
  cases x with
  | lit s =>
    rw [← hfx]
    exact h _ hx
  | ph n =>
    by_cases hn : n = k
    · rw [← hfx]
      simpa [hn] using hv
    · rw [← hfx]
      simpa [hn] using h _ hx

theorem buildPromptL_flattenT (vars : List (List Char × List Char)) :
    ∀ items : List TItem, (∀ it ∈ items, itemOk it) →
      (∀ kv ∈ vars, braceFree kv.1 ∧ braceFree kv.2) →
      buildPromptL (flattenT items) vars
        = flattenT (vars.foldl (fun its kv => substItems kv.1 kv.2 its) items) := by
  induction vars with
  | nil => intro items _ _; rfl
  | cons kv vs ih =>
    intro items hitems hvars
    have hkv := hvars kv (List.mem_cons_self _ _)
    show List.foldl _ _ _ = _
    rw [List.foldl_cons, List.foldl_cons]
    rw [replaceAllL_flattenT kv.1 kv.2 hkv.1 items hitems]
    exact ih (substItems kv.1 kv.2 items) (substItems_ok kv.1 kv.2 hkv.2 items hitems)
      (fun x hx => hvars x (List.mem_cons_of_mem kv hx))

theorem foldl_substItems_eq_map (vars : List (List Char × List Char)) :
    ∀ items : List TItem,
      vars.foldl (fun its kv => substItems kv.1 kv.2 its) items = items.map (subItemVar vars) := by
  induction vars with
  | nil =>
    intro items
    exact (List.map_id items).symm
  | cons kv vs ih =>
    intro items
    rw [List.foldl_cons, ih (substItems kv.1 kv.2 items)]
    rw [show substItems kv.1 kv.2 items = items.map (fun it => subItemStep it kv) from by
      simp [substItems, subItemStep]]
    rw [List.map_map]
    rfl

theorem subItemVar_lit (vars : List (List Char × List Char)) (s : List Char) :
    subItemVar vars (.lit s) = .lit s := by
  induction vars with
  | nil => rfl
  | cons kv vs ih => exact ih

theorem subItemVar_ph (vars : List (List Char × List Char)) (n : List Char) :
    subItemVar vars (.ph n) = match alookup n vars with
      | some v => TItem.lit v
      | none => TItem.ph n := by
  induction vars with
  | nil => rfl
  | cons kv vs ih =>
    by_cases h : n = kv.1
    · have hstep : subItemVar (kv :: vs) (.ph n) = subItemVar vs (.lit kv.2) := by
        simp [subItemVar, subItemStep, h]
      rw [hstep, subItemVar_lit]
      have hl : alookup n (kv :: vs) = some kv.2 := by
        rcases kv with ⟨k₁, v₁⟩
        simp_all [alookup]
      rw [hl]
    · have hstep : subItemVar (kv :: vs) (.ph n) = subItemVar vs (.ph n) := by
        simp [subItemVar, subItemStep, h]
      rw [hstep, ih]
      have hl : alookup n (kv :: vs) = alookup n vs := by
        rcases kv with ⟨k₁, v₁⟩
        have : k₁ ≠ n := fun hc => h hc.symm
        simp_all [alookup]
      rw [hl]

theorem flattenT_map_subItemVar (vars : List (List Char × List Char)) :
    ∀ items : List TItem, flattenT (items.map (subItemVar vars)) = renderT vars items := by
  intro items
  induction items with
  | nil => rfl
  | cons it rest ih =>
    cases it with
    | lit s =>
      rw [List.map_cons, subItemVar_lit]
      rw [show flattenT (.lit s :: rest.map (subItemVar vars)) = s ++ flattenT (rest.map (subItemVar vars)) from rfl]
      rw [ih]
      rfl
    | ph n =>
      rw [List.map_cons, subItemVar_ph]
      rcases h : alookup n vars with _ | v
      · simp only [flattenT]
        rw [ih]
        simp [renderT, h]
      · simp only [flattenT]
        rw [ih]
        simp [renderT, h]

/-- Claim C5 counterexample: `buildPrompt` is not pure simultaneous
substitution.  With template `{{a}}` and variables `a ↦ {{b}}`, `b ↦ X`
(in entry order), the sequential passes rewrite the substituted value of
`a` again, producing `X`; pure one-pass substitution of the template (the
spec-side renderer) produces `{{b}}`. -/
theorem buildPrompt_not_pure_substitution_cex :
    buildPrompt "\x7b\x7ba\x7d\x7d" [("a", "\x7b\x7bb\x7d\x7d"), ("b", "X")] = "X" ∧
    specRender "\x7b\x7ba\x7d\x7d" [("a", "\x7b\x7bb\x7d\x7d"), ("b", "X")] = "\x7b\x7bb\x7d\x7d" ∧
    ("X" : String) ≠ "\x7b\x7bb\x7d\x7d" := by
  refine ⟨?_, rfl, by decide⟩
  have e1 : replaceAllL (phL "a".data) "\x7b\x7bb\x7d\x7d".data "\x7b\x7ba\x7d\x7d".data
      = "\x7b\x7bb\x7d\x7d".data := by
    have h : "\x7b\x7ba\x7d\x7d".data = phL "a".data ++ ([] : List Char) := by decide
    rw [h, replaceAllL_head_match _ _ _ (by simp [phL])]
    simp [replaceAllL]
  have e2 : replaceAllL (phL "b".data) "X".data "\x7b\x7bb\x7d\x7d".data = "X".data := by
    have h : "\x7b\x7bb\x7d\x7d".data = phL "b".data ++ ([] : List Char) := by decide
    rw [h, replaceAllL_head_match _ _ _ (by simp [phL])]
    simp [replaceAllL]
  show String.mk (buildPromptL "\x7b\x7ba\x7d\x7d".data
    [("a".data, "\x7b\x7bb\x7d\x7d".data), ("b".data, "X".data)]) = "X"
  rw [show buildPromptL "\x7b\x7ba\x7d\x7d".data
      [("a".data, "\x7b\x7bb\x7d\x7d".data), ("b".data, "X".data)]
    = replaceAllL (phL "b".data) "X".data
        (replaceAllL (phL "a".data) "\x7b\x7bb\x7d\x7d".data "\x7b\x7ba\x7d\x7d".data) from rfl]
  rw [e1, e2]

/-- Claim C5 as amended: rendering never throws (it is a total function)
but is sequential per-variable substitution, not pure simultaneous
substitution: each variable in entry order globally replaces its
`{{key}}` in the running result, so an earlier variable's substituted
value is itself subject to later variables (see the counterexample).  On
the non-interfering fragment — templates of brace-free literal segments
and placeholders with brace-free names, and brace-free values — the
result coincides with pointwise substitution: every placeholder bound by
the variables is replaced by its first binding's string value, and every
unbound placeholder is left verbatim. -/
theorem buildPrompt_sequential_substitution :
    (∀ (template : String) (vs : List (String × String)),
      buildPrompt template vs
        = String.mk (buildPromptL template.data (vs.map fun kv => (kv.1.data, kv.2.data)))) ∧
    (∀ (items : List TItem) (vars : List (List Char × List Char)),
      (∀ it ∈ items, itemOk it) →
      (∀ kv ∈ vars, braceFree kv.1 ∧ braceFree kv.2) →
      buildPromptL (flattenT items) vars = renderT vars items) := by
  refine ⟨fun _ _ => rfl, ?_⟩
  intro items vars hitems hvars
  rw [buildPromptL_flattenT vars items hitems hvars, foldl_substItems_eq_map,
    flattenT_map_subItemVar]

/-- Witness for C5's amended theorem: the template
`Hello {{name}}!{{missing}}` with the single binding `name ↦ World`
renders to `Hello World!{{missing}}` — the bound placeholder substituted,
the unbound one verbatim. -/
theorem buildPrompt_sequential_substitution_witness :
    (∀ it ∈ [TItem.lit "Hello ".data, TItem.ph "name".data,
             TItem.lit "!".data, TItem.ph "missing".data], itemOk it) ∧
    (∀ kv ∈ [("name".data, "World".data)], braceFree kv.1 ∧ braceFree kv.2) ∧
    buildPromptL
        (flattenT [TItem.lit "Hello ".data, TItem.ph "name".data,
                   TItem.lit "!".data, TItem.ph "missing".data])
        [("name".data, "World".data)]
      = renderT [("name".data, "World".data)]
          [TItem.lit "Hello ".data, TItem.ph "name".data,
           TItem.lit "!".data, TItem.ph "missing".data] ∧
    renderT [("name".data, "World".data)]
        [TItem.lit "Hello ".data, TItem.ph "name".data,
         TItem.lit "!".data, TItem.ph "missing".data]
      = "Hello World!\x7b\x7bmissing\x7d\x7d".data :=
  ⟨by decide, by decide,
   buildPrompt_sequential_substitution.2
     [TItem.lit "Hello ".data, TItem.ph "name".data,
      TItem.lit "!".data, TItem.ph "missing".data]
     [("name".data, "World".data)] (by decide) (by decide),
   by decide⟩
